import Mathlib

/-!
Shallow embedding of the core pipeline of `raport_pogoda.py`: the day-part
bucketer (`summarize_dayparts`), the ensemble fuser (`average_across_models`),
the precipitation classifier (`classify_precip`), the fog detector (`is_fog`),
and the orchestration of `main` (modelled as `runMain` over per-pair fetch
outcomes).  Machine floats are modelled as exact rationals; pandas missing
values (NaN / None) are modelled as `Option`; pandas `mean` / `max` / `min`
over a column skip missing values, which is made explicit via `nonNull`.
Timestamps are abstracted to a day index (`Nat`) plus an hour (`Nat`), exactly
the two projections (`date`, `hour`) the source derives before bucketing.
-/

namespace RaportPogoda

/-- Python rounding of a rational to the nearest integer, ties to even:
the behaviour of `round(x, 0)` and of numpy rounding used by pandas. -/
def roundHE (q : ℚ) : ℤ :=
  let f := ⌊q⌋
  let r := q - (f : ℚ)
  if r < 1/2 then f
  else if (1 : ℚ)/2 < r then f + 1
  else if f % 2 = 0 then f else f + 1

/-- Rounding to one decimal place (`Series.round(1)` in the source). -/
def round1 (q : ℚ) : ℚ := ((roundHE (10 * q) : ℤ) : ℚ) / 10

/-- Python `int(x)` on a float: truncation toward zero. -/
def truncQ (q : ℚ) : ℤ := if 0 ≤ q then ⌊q⌋ else ⌈q⌉

/-- The non-missing values of a column (`Series.dropna`). -/
def nonNull (xs : List (Option α)) : List α := xs.filterMap id

/-- pandas `Series.mean` over the non-missing values of a column:
NaN (here `none`) when every value is missing. -/
def meanO (xs : List (Option ℚ)) : Option ℚ :=
  let v := nonNull xs
  if v.isEmpty then none else some (v.sum / (v.length : ℚ))

/-- pandas `Series.mean` over a column with no missing values. -/
def meanQ (l : List ℚ) : Option ℚ :=
  if l.isEmpty then none else some (l.sum / (l.length : ℚ))

/-- pandas `Series.min` over a list without missing values (reduce by `min`). -/
def minList [LinearOrder α] : List α → Option α
  | [] => none
  | x :: xs => some (xs.foldl min x)

/-- pandas `Series.max` over a list without missing values (reduce by `max`). -/
def maxList [LinearOrder α] : List α → Option α
  | [] => none
  | x :: xs => some (xs.foldl max x)

/-- pandas `Series.min` skipping missing values. -/
def minO [LinearOrder α] (xs : List (Option α)) : Option α := minList (nonNull xs)

/-- pandas `Series.max` skipping missing values. -/
def maxO [LinearOrder α] (xs : List (Option α)) : Option α := maxList (nonNull xs)

/-- `LOCATIONS`-independent constant of the source: the snow threshold in mm. -/
def SNOW_THRESHOLD_MM : ℚ := 0.1

/-- `DAYPARTS` of the source: name with the half-open hour range `[lo, hi)`
(Python `range(lo, hi)` membership). -/
def DAYPARTS : List (String × Nat × Nat) :=
  [("noc", 0, 6), ("rano", 6, 12), ("poludnie", 12, 18), ("wieczor", 18, 24)]

/-- `hour in range(lo, hi)`. -/
def inRange (h lo hi : Nat) : Bool := decide (lo ≤ h) && decide (h < hi)

/-- `is_fog` of the source: weather codes 45 and 48. -/
def is_fog (code : ℤ) : Bool := code == 45 || code == 48

/-- `classify_precip` of the source.  The Python guards `rain_mm or 0.0`
replace a missing value by `0.0` (and leave `0.0` itself unchanged), which is
`Option.getD 0`. -/
def classify_precip (rain_mm snow_mm : Option ℚ) : String :=
  let r := rain_mm.getD 0
  let s := snow_mm.getD 0
  if r < 0.1 ∧ s < 0.1 then "brak"
  else if 0.1 ≤ s ∧ r < 0.1 then "snieg"
  else if 0.1 ≤ r ∧ s < 0.1 then "deszcz"
  else "mieszane"

/-- One hourly observation, after the source has split its timestamp into a
calendar date (abstracted to a day index) and an hour of day.  Each metric may
be missing. -/
structure HourlyRecord where
  date : Nat
  hour : Nat
  temperature_2m : Option ℚ
  precipitation : Option ℚ
  snowfall : Option ℚ
  windspeed_10m : Option ℚ
  windgusts_10m : Option ℚ
  weathercode : Option ℤ
  visibility : Option ℚ
deriving DecidableEq

/-- One `ModelDaypartSummary` row, with the source's column names. -/
structure Row where
  miejsce : String
  model : String
  data : Nat
  pora_dnia : String
  temp_C_srednia : Option ℚ
  wiatr_km_h_sredni : Option ℚ
  porywy_km_h_max : Option ℚ
  opad_mm_suma : ℚ
  snieg_suma : ℚ
  typ_opadu : String
  mgla : Bool
  widzialnosc_min_m : Option ℤ
deriving DecidableEq

/-- The row the bucketer appends for one non-empty `(date, daypart)` bucket
(the dict literal of `summarize_dayparts`). -/
def mkRow (place model : String) (date : Nat) (part : String)
    (sub : List HourlyRecord) : Row :=
  let temp := meanO (sub.map (·.temperature_2m))
  let wind := meanO (sub.map (·.windspeed_10m))
  let gust := maxO (sub.map (·.windgusts_10m))
  let rain := (nonNull (sub.map (·.precipitation))).sum
  let snow := (nonNull (sub.map (·.snowfall))).sum
  let fog := sub.any (fun r => is_fog (r.weathercode.getD 0))
  let vis_min := minO (sub.map (·.visibility))
  { miejsce := place
    model := model
    data := date
    pora_dnia := part
    temp_C_srednia := temp
    wiatr_km_h_sredni := wind
    porywy_km_h_max := gust
    opad_mm_suma := rain
    snieg_suma := snow
    typ_opadu := classify_precip (some rain) (some snow)
    mgla := fog
    widzialnosc_min_m := vis_min.map truncQ }

/-- Index of a daypart name in the categorical order of the source. -/
def poraIdx (p : String) : Nat :=
  (["noc", "rano", "poludnie", "wieczor"].indexOf p)

/-- The sort key of `sort_values(["miejsce", "model", "data", "pora_dnia"])`. -/
def rowLeB (a b : Row) : Bool :=
  if a.miejsce = b.miejsce then
    if a.model = b.model then
      if a.data = b.data then decide (poraIdx a.pora_dnia ≤ poraIdx b.pora_dnia)
      else decide (a.data ≤ b.data)
    else decide (a.model ≤ b.model)
  else decide (a.miejsce ≤ b.miejsce)

/-- The distinct dates of the hourly table, in the ascending order in which
`groupby("date")` visits them. -/
def datesOf (recs : List HourlyRecord) : List Nat :=
  List.insertionSort (fun a b => a ≤ b) (recs.map (·.date)).dedup

/-- The records of one `(date, daypart)` bucket: the
`sub = dfd[dfd["hour"].isin(hours)]` selection of the source, for the date
group `d` and the daypart entry `pr`. -/
def bucketOf (recs : List HourlyRecord) (d : Nat) (pr : String × Nat × Nat) :
    List HourlyRecord :=
  recs.filter (fun rec => rec.date == d && inRange rec.hour pr.2.1 pr.2.2)

/-- The bucketer's contribution of one `(date, daypart)` pair: skipped
(`continue`) when the bucket is empty, otherwise the appended row. -/
def rowOf (recs : List HourlyRecord) (place model : String) (d : Nat)
    (pr : String × Nat × Nat) : Option Row :=
  if (bucketOf recs d pr).isEmpty then none
  else some (mkRow place model d pr.1 (bucketOf recs d pr))

/-- The unsorted bucket rows of `summarize_dayparts`: one row per non-empty
`(date, daypart)` bucket, empty buckets skipped by the `continue`. -/
def bucketRows (recs : List HourlyRecord) (place model : String) : List Row :=
  (datesOf recs).flatMap (fun d => DAYPARTS.filterMap (rowOf recs place model d))

/-- `summarize_dayparts` of the source: the bucket rows sorted by
`(miejsce, model, data, pora_dnia)` with the categorical daypart order. -/
def summarize_dayparts (recs : List HourlyRecord) (place model : String) : List Row :=
  List.insertionSort (fun a b => rowLeB a b = true) (bucketRows recs place model)

/-- The fold behind `majority`: scan the non-null values, keeping the value
whose count in the whole list `s` is largest, the earliest such value winning
ties.  (`value_counts().index[0]` returns a value of maximal count; on exact
ties its choice is unspecified, so the embedding fixes the earliest one.) -/
def bestCount [DecidableEq α] (s : List α) : List α → Option α → Option α
  | [], best => best
  | v :: rest, best =>
    bestCount s rest
      (match best with
       | none => some v
       | some b => if s.count b < s.count v then some v else some b)

/-- `majority` of the source: drop the missing values; `None` when nothing is
left, otherwise a non-null value of maximal frequency. -/
def majority [DecidableEq α] (xs : List (Option α)) : Option α :=
  let s := nonNull xs
  bestCount s s none

/-- pandas `Series.quantile(0.9)` with the default linear interpolation
between order statistics, over a column with no missing values. -/
def quantile09 (l : List ℚ) : Option ℚ :=
  if l.isEmpty then none
  else
    let s := List.insertionSort (fun a b : ℚ => a ≤ b) l
    let k := (9 * (l.length - 1)) / 10
    let frac : ℚ := ((9 * (l.length - 1)) % 10 : ℕ) / 10
    some (s.getD k 0 + frac * (s.getD (k + 1) 0 - s.getD k 0))

/-- One `EnsembleSummary` row of `average_across_models`, with the source's
column names (`modele_uzyte` kept as the sorted list before the `", ".join`,
together with the joined string). -/
structure EnsembleRow where
  temp_C_srednia : Option ℚ
  wiatr_km_h_sredni : Option ℚ
  porywy_km_h_max : Option ℚ
  opad_mm_suma : Option ℚ
  snieg_suma : Option ℚ
  mgla : Option Bool
  typ_opadu : Option String
  widzialnosc_min_m : Option ℤ
  modele_uzyte : List String
  modele_uzyte_str : String
  liczba_modeli : Nat
  snieg_min_mm : Option ℚ
  snieg_max_mm : Option ℚ
  snieg_p90_mm : Option ℚ
  snieg_modele_ile : Nat
  snieg_modele_pct : ℚ
deriving DecidableEq

/-- The per-key aggregation of `average_across_models`, applied to the group
of `ModelDaypartSummary` rows sharing one `(miejsce, data, pora_dnia)` key:
steps 1–4 of the source plus the final `round(1)` of the numeric columns. -/
def fuseKey (rows : List Row) : EnsembleRow :=
  let snows := rows.map (·.snieg_suma)
  let models := rows.map (·.model)
  let ile := snows.countP (fun x => decide (SNOW_THRESHOLD_MM ≤ x))
  { temp_C_srednia := (meanO (rows.map (·.temp_C_srednia))).map round1
    wiatr_km_h_sredni := (meanO (rows.map (·.wiatr_km_h_sredni))).map round1
    porywy_km_h_max := (meanO (rows.map (·.porywy_km_h_max))).map round1
    opad_mm_suma := (meanQ (rows.map (·.opad_mm_suma))).map round1
    snieg_suma := (meanQ snows).map round1
    mgla := majority (rows.map (fun r => some r.mgla))
    typ_opadu := majority (rows.map (fun r => some r.typ_opadu))
    widzialnosc_min_m := minO (rows.map (·.widzialnosc_min_m))
    modele_uzyte := List.insertionSort (fun a b : String => a ≤ b) models.dedup
    modele_uzyte_str :=
      String.intercalate ", " (List.insertionSort (fun a b : String => a ≤ b) models.dedup)
    liczba_modeli := models.dedup.length
    snieg_min_mm := (minList snows).map round1
    snieg_max_mm := (maxList snows).map round1
    snieg_p90_mm := (quantile09 snows).map round1
    snieg_modele_ile := ile
    snieg_modele_pct :=
      if snows.length = 0 then 0
      else ((roundHE (100 * (ile : ℚ) / (snows.length : ℚ)) : ℤ) : ℚ) }

/-- The full key of one ensemble row: `(miejsce, data, pora_dnia)`. -/
def keyOf (r : Row) : String × Nat × String := (r.miejsce, r.data, r.pora_dnia)

/-- The sort key of the fuser's `sort_values(["miejsce", "data", "pora_dnia"])`
with the categorical daypart order. -/
def keyLeB (a b : String × Nat × String) : Bool :=
  if a.1 = b.1 then
    if a.2.1 = b.2.1 then decide (poraIdx a.2.2 ≤ poraIdx b.2.2)
    else decide (a.2.1 ≤ b.2.1)
  else decide (a.1 ≤ b.1)

/-- The group keys of `groupby(keys, observed=False)` on a frame whose
`pora_dnia` is categorical: the cartesian product of the observed places, the
observed dates, and all four daypart categories. -/
def groupKeys (df : List Row) : List (String × Nat × String) :=
  List.insertionSort (fun a b => keyLeB a b = true)
    ((df.map (·.miejsce)).dedup.flatMap (fun p =>
      (df.map (·.data)).dedup.flatMap (fun d =>
        (DAYPARTS.map (·.1)).map (fun q => (p, d, q)))))

/-- `average_across_models` of the source: empty in, empty out; otherwise one
fused row per group key, the groups aligned by the merges on `keys`. -/
def average_across_models (df : List Row) : List ((String × Nat × String) × EnsembleRow) :=
  if df.isEmpty then []
  else (groupKeys df).map (fun k => (k, fuseKey (df.filter (fun r => keyOf r == k))))

/-- The test of `main` at line 294: a fetched-and-bucketed part is kept only
when it is non-empty (`if s is not None and not s.empty`). -/
def usable : Except String (List Row) → Bool
  | .ok rows => !rows.isEmpty
  | .error _ => false

/-- The orchestration of `main` over the per-`(location, model)` outcomes:
an exception is caught and the pair skipped; an empty summary is dropped; if
nothing usable remains the run aborts (`raise SystemExit`), else the usable
parts are concatenated and fused. -/
def runMain (results : List (Except String (List Row))) :
    Except String (List ((String × Nat × String) × EnsembleRow)) :=
  let parts := results.filterMap (fun r =>
    match r with
    | .ok rows => if rows.isEmpty then none else some rows
    | .error _ => none)
  if parts.isEmpty then .error "Nie udalo sie pobrac danych z zadnego modelu."
  else .ok (average_across_models parts.flatten)

/-- A one-field test row used to evaluate the fuser on the spec's examples:
a `ModelDaypartSummary` whose only non-trivial metric is the mean
temperature. -/
def sampleTempRow (t : Option ℚ) : Row :=
  { miejsce := "W", model := "m", data := 0, pora_dnia := "noc",
    temp_C_srednia := t, wiatr_km_h_sredni := none, porywy_km_h_max := none,
    opad_mm_suma := 0, snieg_suma := 0, typ_opadu := "brak", mgla := false,
    widzialnosc_min_m := none }

/-- A test row with a given model name and snowfall sum, used to evaluate the
fuser's snow agreement statistics on the spec's 2-of-3 example. -/
def snowRow (m : String) (s : ℚ) : Row :=
  { miejsce := "W", model := m, data := 0, pora_dnia := "noc",
    temp_C_srednia := none, wiatr_km_h_sredni := none, porywy_km_h_max := none,
    opad_mm_suma := 0, snieg_suma := s, typ_opadu := "brak", mgla := false,
    widzialnosc_min_m := none }

/-- A test record whose only non-missing metric is a fractional visibility,
used to evaluate the bucketer's `int(vis_min)` truncation. -/
def visRec : HourlyRecord :=
  { date := 0, hour := 0, temperature_2m := none, precipitation := none,
    snowfall := none, windspeed_10m := none, windgusts_10m := none,
    weathercode := none, visibility := some (24697/20) }

/-! ### Helper lemmas about the aggregation primitives -/

theorem minList_eq_none_iff [LinearOrder α] (l : List α) :
    minList l = none ↔ l = [] := by
  cases l <;> simp [minList]

theorem maxList_eq_none_iff [LinearOrder α] (l : List α) :
    maxList l = none ↔ l = [] := by
  cases l <;> simp [maxList]

theorem meanO_eq_none_iff (xs : List (Option ℚ)) :
    meanO xs = none ↔ nonNull xs = [] := by
  unfold meanO
  rcases h : nonNull xs with _ | ⟨v, r⟩ <;> simp [h]

theorem meanO_of_ne_nil (xs : List (Option ℚ)) (h : nonNull xs ≠ []) :
    meanO xs = some ((nonNull xs).sum / ((nonNull xs).length : ℚ)) := by
  unfold meanO
  simp [List.isEmpty_iff, h]

theorem meanQ_of_ne_nil (l : List ℚ) (h : l ≠ []) :
    meanQ l = some (l.sum / (l.length : ℚ)) := by
  unfold meanQ
  simp [List.isEmpty_iff, h]

theorem nonNull_eq_nil_iff (xs : List (Option α)) :
    nonNull xs = [] ↔ ∀ x ∈ xs, x = none := by
  simp [nonNull]

theorem nonNull_map_some (l : List β) (f : β → α) :
    nonNull (l.map (fun x => some (f x))) = l.map f := by
  simp [nonNull, List.filterMap_map]
  exact List.filterMap_eq_map f ▸ rfl

theorem foldl_min_le_init [LinearOrder α] (xs : List α) (x : α) :
    xs.foldl min x ≤ x := by
  induction xs generalizing x with
  | nil => simp
  | cons y ys ih => exact le_trans (ih (min x y)) (min_le_left x y)

theorem foldl_min_le_mem [LinearOrder α] (xs : List α) (x : α) :
    ∀ y ∈ xs, xs.foldl min x ≤ y := by
  induction xs generalizing x with
  | nil => simp
  | cons z zs ih =>
    intro y hy
    rcases List.mem_cons.1 hy with h | h
    · subst h
      exact le_trans (foldl_min_le_init zs (min x y)) (min_le_right x y)
    · exact ih (min x z) y h

theorem foldl_min_mem [LinearOrder α] (xs : List α) (x : α) :
    xs.foldl min x = x ∨ xs.foldl min x ∈ xs := by
  induction xs generalizing x with
  | nil => simp
  | cons y ys ih =>
    rcases ih (min x y) with h | h
    · rcases min_choice x y with hc | hc
      · left
        rw [List.foldl_cons, h, hc]
      · right
        rw [List.foldl_cons, h, hc]
        exact List.mem_cons_self y ys
    · right
      exact List.mem_cons_of_mem y h

theorem foldl_max_init_le [LinearOrder α] (xs : List α) (x : α) :
    x ≤ xs.foldl max x := by
  induction xs generalizing x with
  | nil => simp
  | cons y ys ih => exact le_trans (le_max_left x y) (ih (max x y))

theorem foldl_max_mem_le [LinearOrder α] (xs : List α) (x : α) :
    ∀ y ∈ xs, y ≤ xs.foldl max x := by
  induction xs generalizing x with
  | nil => simp
  | cons z zs ih =>
    intro y hy
    rcases List.mem_cons.1 hy with h | h
    · subst h
      exact le_trans (le_max_right x y) (foldl_max_init_le zs (max x y))
    · exact ih (max x z) y h

theorem foldl_max_mem [LinearOrder α] (xs : List α) (x : α) :
    xs.foldl max x = x ∨ xs.foldl max x ∈ xs := by
  induction xs generalizing x with
  | nil => simp
  | cons y ys ih =>
    rcases ih (max x y) with h | h
    · rcases max_choice x y with hc | hc
      · left
        rw [List.foldl_cons, h, hc]
      · right
        rw [List.foldl_cons, h, hc]
        exact List.mem_cons_self y ys
    · right
      exact List.mem_cons_of_mem y h

theorem minList_spec [LinearOrder α] (l : List α) (m : α) (h : minList l = some m) :
    m ∈ l ∧ ∀ x ∈ l, m ≤ x := by
  cases l with
  | nil => simp [minList] at h
  | cons x xs =>
    simp only [minList, Option.some.injEq] at h
    subst h
    refine ⟨?_, ?_⟩
    · rcases foldl_min_mem xs x with h | h
      · rw [h]; exact List.mem_cons_self x xs
      · exact List.mem_cons_of_mem x h
    · intro y hy
      rcases List.mem_cons.1 hy with h | h
      · subst h; exact foldl_min_le_init xs y
      · exact foldl_min_le_mem xs x y h

theorem maxList_spec [LinearOrder α] (l : List α) (m : α) (h : maxList l = some m) :
    m ∈ l ∧ ∀ x ∈ l, x ≤ m := by
  cases l with
  | nil => simp [maxList] at h
  | cons x xs =>
    simp only [maxList, Option.some.injEq] at h
    subst h
    refine ⟨?_, ?_⟩
    · rcases foldl_max_mem xs x with h | h
      · rw [h]; exact List.mem_cons_self x xs
      · exact List.mem_cons_of_mem x h
    · intro y hy
      rcases List.mem_cons.1 hy with h | h
      · subst h; exact foldl_max_init_le xs y
      · exact foldl_max_mem_le xs x y h

theorem minList_isSome [LinearOrder α] (l : List α) (h : l ≠ []) :
    ∃ m, minList l = some m := by
  cases l with
  | nil => exact absurd rfl h
  | cons x xs => exact ⟨xs.foldl min x, rfl⟩

theorem maxList_isSome [LinearOrder α] (l : List α) (h : l ≠ []) :
    ∃ m, maxList l = some m := by
  cases l with
  | nil => exact absurd rfl h
  | cons x xs => exact ⟨xs.foldl max x, rfl⟩

theorem bestCount_isSome [DecidableEq α] (s : List α) :
    ∀ (l : List α) (b : α), ∃ c, bestCount s l (some b) = some c := by
  intro l
  induction l with
  | nil => intro b; exact ⟨b, rfl⟩
  | cons v rest ih =>
    intro b
    show ∃ c, bestCount s rest (if s.count b < s.count v then some v else some b) = some c
    by_cases h : s.count b < s.count v
    · rw [if_pos h]; exact ih v
    · rw [if_neg h]; exact ih b

theorem bestCount_sound [DecidableEq α] (s : List α) :
    ∀ (l : List α) (best : Option α) (b : α), bestCount s l best = some b →
      (best = some b ∨ b ∈ l) ∧ (∀ v ∈ l, s.count v ≤ s.count b) ∧
      (∀ a, best = some a → s.count a ≤ s.count b) := by
  intro l
  induction l with
  | nil =>
    intro best b h
    refine ⟨Or.inl h, by simp, fun a ha => ?_⟩
    rw [ha] at h
    injection h with h
    rw [h]
  | cons v rest ih =>
    intro best b h
    cases best with
    | none =>
      have h' : bestCount s rest (some v) = some b := h
      obtain ⟨hmem, hcnt, hacc⟩ := ih (some v) b h'
      refine ⟨?_, ?_, ?_⟩
      · rcases hmem with hm | hm
        · injection hm with hm; right; rw [hm]; exact List.mem_cons_self _ _
        · right; exact List.mem_cons_of_mem v hm
      · intro u hu
        rcases List.mem_cons.1 hu with h0 | h0
        · subst h0; exact hacc u rfl
        · exact hcnt u h0
      · intro a ha; cases ha
    | some a0 =>
      by_cases hlt : s.count a0 < s.count v
      · have h' : bestCount s rest (some v) = some b := by
          simpa [bestCount, hlt] using h
        obtain ⟨hmem, hcnt, hacc⟩ := ih (some v) b h'
        have hvb : s.count v ≤ s.count b := hacc v rfl
        refine ⟨?_, ?_, ?_⟩
        · rcases hmem with hm | hm
          · injection hm with hm; right; rw [hm]; exact List.mem_cons_self _ _
          · right; exact List.mem_cons_of_mem v hm
        · intro u hu
          rcases List.mem_cons.1 hu with h0 | h0
          · subst h0; exact hvb
          · exact hcnt u h0
        · intro a ha
          injection ha with ha
          subst ha
          exact le_trans (le_of_lt hlt) hvb
      · have h' : bestCount s rest (some a0) = some b := by
          simpa [bestCount, hlt] using h
        obtain ⟨hmem, hcnt, hacc⟩ := ih (some a0) b h'
        have hab : s.count a0 ≤ s.count b := hacc a0 rfl
        refine ⟨?_, ?_, ?_⟩
        · rcases hmem with hm | hm
          · left; exact hm
          · right; exact List.mem_cons_of_mem v hm
        · intro u hu
          rcases List.mem_cons.1 hu with h0 | h0
          · subst h0; exact le_trans (not_lt.1 hlt) hab
          · exact hcnt u h0
        · intro a ha
          injection ha with ha
          subst ha
          exact hab

theorem majority_eq_none_iff [DecidableEq α] (xs : List (Option α)) :
    majority xs = none ↔ nonNull xs = [] := by
  unfold majority
  cases h : nonNull xs with
  | nil => simp [bestCount]
  | cons v rest =>
    simp only [reduceCtorEq, iff_false]
    intro hnone
    have h0 : bestCount (v :: rest) (v :: rest) none
        = bestCount (v :: rest) rest (some v) := rfl
    obtain ⟨c, hc⟩ := bestCount_isSome (v :: rest) rest v
    rw [h0, hc] at hnone
    cases hnone

theorem majority_spec [DecidableEq α] (xs : List (Option α)) (b : α)
    (h : majority xs = some b) :
    b ∈ nonNull xs ∧ ∀ v ∈ nonNull xs, (nonNull xs).count v ≤ (nonNull xs).count b := by
  unfold majority at h
  obtain ⟨hmem, hcnt, _⟩ := bestCount_sound (nonNull xs) (nonNull xs) none b h
  rcases hmem with hm | hm
  · cases hm
  · exact ⟨hm, hcnt⟩

/-! ### Claims -/

/-- C3: the precipitation classifier is a pure total function over
(rain, snow), missing inputs treated as 0.0, and returns `brak` (none) when
both totals are below 0.1, `snieg` (snow) when snow ≥ 0.1 > rain, `deszcz`
(rain) when rain ≥ 0.1 > snow, and `mieszane` (mixed) when both are ≥ 0.1;
the four rules are mutually exclusive, so the stated rule order is the
behaviour on every input.  Includes the spec's four sample calls. -/
theorem c3_classify_rules (rain snow : Option ℚ) :
    (rain.getD 0 < 0.1 → snow.getD 0 < 0.1 → classify_precip rain snow = "brak") ∧
    (0.1 ≤ snow.getD 0 → rain.getD 0 < 0.1 → classify_precip rain snow = "snieg") ∧
    (0.1 ≤ rain.getD 0 → snow.getD 0 < 0.1 → classify_precip rain snow = "deszcz") ∧
    (0.1 ≤ rain.getD 0 → 0.1 ≤ snow.getD 0 → classify_precip rain snow = "mieszane") ∧
    (classify_precip rain snow = "brak" ∨ classify_precip rain snow = "snieg" ∨
      classify_precip rain snow = "deszcz" ∨ classify_precip rain snow = "mieszane") ∧
    classify_precip none none = "brak" ∧
    classify_precip (some 0) (some 0.5) = "snieg" ∧
    classify_precip (some 2) (some 0) = "deszcz" ∧
    classify_precip (some 1) (some 1) = "mieszane" := by
  unfold classify_precip
  refine ⟨?_, ?_, ?_, ?_, ?_, by norm_num, by norm_num, by norm_num, by norm_num⟩
  · intro hr hs
    rw [if_pos ⟨hr, hs⟩]
  · intro hs hr
    rw [if_neg (by rintro ⟨_, h2⟩; exact absurd hs (not_le.2 h2)), if_pos ⟨hs, hr⟩]
  · intro hr hs
    rw [if_neg (by rintro ⟨h1, _⟩; exact absurd hr (not_le.2 h1)),
      if_neg (by rintro ⟨_, h2⟩; exact absurd hr (not_le.2 h2)), if_pos ⟨hr, hs⟩]
  · intro hr hs
    rw [if_neg (by rintro ⟨h1, _⟩; exact absurd hr (not_le.2 h1)),
      if_neg (by rintro ⟨_, h2⟩; exact absurd hr (not_le.2 h2)),
      if_neg (by rintro ⟨_, h2⟩; exact absurd hs (not_le.2 h2))]
  · by_cases hr : rain.getD 0 < 0.1 <;> by_cases hs : snow.getD 0 < 0.1
    · left; rw [if_pos ⟨hr, hs⟩]
    · right; left
      rw [if_neg (by rintro ⟨_, h2⟩; exact absurd h2 hs), if_pos ⟨not_lt.1 hs, hr⟩]
    · right; right; left
      rw [if_neg (by rintro ⟨h1, _⟩; exact absurd h1 hr),
        if_neg (by rintro ⟨_, h2⟩; exact absurd (not_lt.1 hr) (not_le.2 h2)),
        if_pos ⟨not_lt.1 hr, hs⟩]
    · right; right; right
      rw [if_neg (by rintro ⟨h1, _⟩; exact absurd h1 hr),
        if_neg (by rintro ⟨_, h2⟩; exact absurd (not_lt.1 hr) (not_le.2 h2)),
        if_neg (by rintro ⟨_, h2⟩; exact absurd h2 hs)]

/-- C4: the hour-to-daypart mapping is the fixed table
noc=[0,6), rano=[6,12), poludnie=[12,18), wieczor=[18,24) (night, morning,
afternoon, evening), and every hour 0..23 lies in the range of exactly one of
the four dayparts: they partition the day with no gaps and no overlaps. -/
theorem c4_daypart_partition :
    (∀ h : Nat, h < 24 →
      (DAYPARTS.filter (fun pr => inRange h pr.2.1 pr.2.2)).length = 1) ∧
    DAYPARTS = [("noc", 0, 6), ("rano", 6, 12), ("poludnie", 12, 18), ("wieczor", 18, 24)] := by
  exact ⟨by decide, rfl⟩

/-- C1: for every group of rows sharing one (location, date, daypart) key,
each of the five numeric ensemble metrics (mean temperature, mean windspeed,
max windgust, precipitation sum, snowfall sum) is the arithmetic mean of the
contributing models' non-null values, rounded to 1 decimal place, and is null
exactly when every contributing row has null for that metric (the two sum
columns are never null in the fuser's input, so their mean is over all
contributing rows).  Includes the spec's example: the mean over model values
[10.0, 12.0, null] is 11.0. -/
theorem c1_ensemble_numeric_mean (rows : List Row) :
    ((fuseKey rows).temp_C_srednia = none ↔ ∀ r ∈ rows, r.temp_C_srednia = none) ∧
    (∀ l, l = nonNull (rows.map (·.temp_C_srednia)) → l ≠ [] →
      (fuseKey rows).temp_C_srednia = some (round1 (l.sum / (l.length : ℚ)))) ∧
    ((fuseKey rows).wiatr_km_h_sredni = none ↔ ∀ r ∈ rows, r.wiatr_km_h_sredni = none) ∧
    (∀ l, l = nonNull (rows.map (·.wiatr_km_h_sredni)) → l ≠ [] →
      (fuseKey rows).wiatr_km_h_sredni = some (round1 (l.sum / (l.length : ℚ)))) ∧
    ((fuseKey rows).porywy_km_h_max = none ↔ ∀ r ∈ rows, r.porywy_km_h_max = none) ∧
    (∀ l, l = nonNull (rows.map (·.porywy_km_h_max)) → l ≠ [] →
      (fuseKey rows).porywy_km_h_max = some (round1 (l.sum / (l.length : ℚ)))) ∧
    (rows ≠ [] →
      (fuseKey rows).opad_mm_suma =
        some (round1 ((rows.map (·.opad_mm_suma)).sum / (rows.length : ℚ))) ∧
      (fuseKey rows).snieg_suma =
        some (round1 ((rows.map (·.snieg_suma)).sum / (rows.length : ℚ)))) ∧
    (fuseKey [sampleTempRow (some 10), sampleTempRow (some 12), sampleTempRow none]).temp_C_srednia
      = some 11 := by
  have hT : (fuseKey rows).temp_C_srednia
      = (meanO (rows.map (·.temp_C_srednia))).map round1 := rfl
  have hW : (fuseKey rows).wiatr_km_h_sredni
      = (meanO (rows.map (·.wiatr_km_h_sredni))).map round1 := rfl
  have hG : (fuseKey rows).porywy_km_h_max
      = (meanO (rows.map (·.porywy_km_h_max))).map round1 := rfl
  have hO : (fuseKey rows).opad_mm_suma
      = (meanQ (rows.map (·.opad_mm_suma))).map round1 := rfl
  have hS : (fuseKey rows).snieg_suma
      = (meanQ (rows.map (·.snieg_suma))).map round1 := rfl
  refine ⟨?_, ?_, ?_, ?_, ?_, ?_, ?_, ?_⟩
  · rw [hT, Option.map_eq_none', meanO_eq_none_iff, nonNull_eq_nil_iff,
      List.forall_mem_map]
  · intro l hl hne
    subst hl
    rw [hT, meanO_of_ne_nil _ hne]
    rfl
  · rw [hW, Option.map_eq_none', meanO_eq_none_iff, nonNull_eq_nil_iff,
      List.forall_mem_map]
  · intro l hl hne
    subst hl
    rw [hW, meanO_of_ne_nil _ hne]
    rfl
  · rw [hG, Option.map_eq_none', meanO_eq_none_iff, nonNull_eq_nil_iff,
      List.forall_mem_map]
  · intro l hl hne
    subst hl
    rw [hG, meanO_of_ne_nil _ hne]
    rfl
  · intro hne
    have hne' : ∀ f : Row → ℚ, rows.map f ≠ [] := by
      intro f h
      exact hne (List.map_eq_nil_iff.1 h)
    constructor
    · rw [hO, meanQ_of_ne_nil _ (hne' _), List.length_map]
      rfl
    · rw [hS, meanQ_of_ne_nil _ (hne' _), List.length_map]
      rfl
  · have hmap : ([sampleTempRow (some 10), sampleTempRow (some 12),
        sampleTempRow none].map (·.temp_C_srednia)) = [some 10, some 12, none] := rfl
    have h10 : nonNull [some (10:ℚ), some 12, none] = [10, 12] := rfl
    have hf : (fuseKey [sampleTempRow (some 10), sampleTempRow (some 12),
        sampleTempRow none]).temp_C_srednia
      = (meanO ([sampleTempRow (some 10), sampleTempRow (some 12),
        sampleTempRow none].map (·.temp_C_srednia))).map round1 := rfl
    rw [hf, hmap, meanO_of_ne_nil _ (by rw [h10]; exact List.cons_ne_nil _ _), h10]
    norm_num [round1, roundHE]

/-- C2: for every group of rows sharing one key, the ensemble `typ_opadu`
(precip_type) and `mgla` (fog) are computed by `majority`, which returns a
most frequent non-null value of the column (the embedding fixes the
deterministic tie-break: the earliest value of maximal count), and returns
null exactly when there is no non-null contributing value — here exactly when
the group is empty, since the bucketer never emits a null `typ_opadu` or
`mgla`. -/
theorem c2_majority_vote (rows : List Row) :
    (fuseKey rows).typ_opadu = majority (rows.map (fun r => some r.typ_opadu)) ∧
    (fuseKey rows).mgla = majority (rows.map (fun r => some r.mgla)) ∧
    ((fuseKey rows).typ_opadu = none ↔ rows = []) ∧
    ((fuseKey rows).mgla = none ↔ rows = []) ∧
    (∀ t, (fuseKey rows).typ_opadu = some t →
      t ∈ rows.map (·.typ_opadu) ∧
      ∀ v ∈ rows.map (·.typ_opadu),
        (rows.map (·.typ_opadu)).count v ≤ (rows.map (·.typ_opadu)).count t) ∧
    (∀ b, (fuseKey rows).mgla = some b →
      b ∈ rows.map (·.mgla) ∧
      ∀ v ∈ rows.map (·.mgla),
        (rows.map (·.mgla)).count v ≤ (rows.map (·.mgla)).count b) := by
  have hP : (fuseKey rows).typ_opadu = majority (rows.map (fun r => some r.typ_opadu)) := rfl
  have hF : (fuseKey rows).mgla = majority (rows.map (fun r => some r.mgla)) := rfl
  have eP := nonNull_map_some rows (·.typ_opadu)
  have eF := nonNull_map_some rows (·.mgla)
  refine ⟨hP, hF, ?_, ?_, ?_, ?_⟩
  · rw [hP, majority_eq_none_iff, eP, List.map_eq_nil_iff]
  · rw [hF, majority_eq_none_iff, eF, List.map_eq_nil_iff]
  · intro t ht
    rw [hP] at ht
    have := majority_spec _ t ht
    rw [eP] at this
    exact this
  · intro b hb
    rw [hF] at hb
    have := majority_spec _ b hb
    rw [eF] at this
    exact this

/-- C5: for every group of rows sharing one key, `liczba_modeli`
(models_used_count) equals the number of entries of `modele_uzyte`
(models_used), which is duplicate-free and contains exactly the model names
of the contributing rows; the rendered string is the comma-join of that
list.  The two fields are computed independently in the source (`nunique`
versus sorted de-duplicated join). -/
theorem c5_models_used_count (rows : List Row) :
    ((fuseKey rows).modele_uzyte).length = (fuseKey rows).liczba_modeli ∧
    ((fuseKey rows).modele_uzyte).Nodup ∧
    (∀ m, m ∈ (fuseKey rows).modele_uzyte ↔ ∃ r ∈ rows, r.model = m) ∧
    (fuseKey rows).modele_uzyte_str = String.intercalate ", " (fuseKey rows).modele_uzyte := by
  have hperm : (List.insertionSort (fun a b : String => a ≤ b)
      (rows.map (·.model)).dedup).Perm (rows.map (·.model)).dedup :=
    List.perm_insertionSort _ _
  refine ⟨hperm.length_eq, ?_, ?_, rfl⟩
  · exact (hperm.nodup_iff).2 (List.nodup_dedup _)
  · intro m
    have hmu : (fuseKey rows).modele_uzyte
      = List.insertionSort (fun a b : String => a ≤ b) (rows.map (·.model)).dedup := rfl
    rw [hmu, hperm.mem_iff, List.mem_dedup, List.mem_map]

/-- C6: for every group of rows sharing one key, the snow cross-model
statistics over the per-model snowfall sums (a total column: the bucketer
defaults a missing sum to 0.0) are their minimum, their maximum, the 90th
percentile with linear interpolation between the sorted order statistics
(min/max/p90 rounded to 1 decimal), the count of models with snow sum
≥ 0.1 mm, and — when each contributing row carries a distinct model, as the
pipeline guarantees — that count as a percentage of `liczba_modeli`
(models_used_count) rounded to the nearest whole percent, with 0% for an
empty group.  Includes the spec's example: 2 of 3 contributing models gives
67%. -/
theorem c6_snow_statistics (rows : List Row) :
    (rows ≠ [] → ∃ m, m ∈ rows.map (·.snieg_suma) ∧
      (∀ x ∈ rows.map (·.snieg_suma), m ≤ x) ∧
      (fuseKey rows).snieg_min_mm = some (round1 m)) ∧
    (rows ≠ [] → ∃ m, m ∈ rows.map (·.snieg_suma) ∧
      (∀ x ∈ rows.map (·.snieg_suma), x ≤ m) ∧
      (fuseKey rows).snieg_max_mm = some (round1 m)) ∧
    (∀ s, s = List.insertionSort (fun a b : ℚ => a ≤ b) (rows.map (·.snieg_suma)) →
      s.Sorted (fun a b : ℚ => a ≤ b) ∧ s.Perm (rows.map (·.snieg_suma)) ∧
      (rows ≠ [] →
        (fuseKey rows).snieg_p90_mm = some (round1
          (s.getD ((9 * (rows.length - 1)) / 10) 0 +
            (((9 * (rows.length - 1)) % 10 : ℕ) : ℚ) / 10 *
              (s.getD ((9 * (rows.length - 1)) / 10 + 1) 0 -
                s.getD ((9 * (rows.length - 1)) / 10) 0))))) ∧
    SNOW_THRESHOLD_MM = 0.1 ∧
    (fuseKey rows).snieg_modele_ile =
      ((rows.map (·.snieg_suma)).filter (fun x => decide (SNOW_THRESHOLD_MM ≤ x))).length ∧
    ((rows.map (·.model)).Nodup → rows ≠ [] →
      (fuseKey rows).snieg_modele_pct =
        ((roundHE (100 * ((fuseKey rows).snieg_modele_ile : ℚ) /
          ((fuseKey rows).liczba_modeli : ℚ)) : ℤ) : ℚ)) ∧
    (rows = [] → (fuseKey rows).snieg_modele_pct = 0) ∧
    (fuseKey [snowRow "a" 0, snowRow "b" (0.2), snowRow "c" (0.3)]).snieg_modele_pct = 67 := by
  have hlen : (rows.map (·.snieg_suma)).length = rows.length := List.length_map _ _
  have hne' : rows ≠ [] → rows.map (·.snieg_suma) ≠ [] := by
    intro hne h
    exact hne (List.map_eq_nil_iff.1 h)
  refine ⟨?_, ?_, ?_, rfl, ?_, ?_, ?_, ?_⟩
  · intro hne
    obtain ⟨m, hm⟩ := minList_isSome _ (hne' hne)
    obtain ⟨hmem, hle⟩ := minList_spec _ m hm
    refine ⟨m, hmem, hle, ?_⟩
    have hf : (fuseKey rows).snieg_min_mm
      = (minList (rows.map (·.snieg_suma))).map round1 := rfl
    rw [hf, hm]
    rfl
  · intro hne
    obtain ⟨m, hm⟩ := maxList_isSome _ (hne' hne)
    obtain ⟨hmem, hle⟩ := maxList_spec _ m hm
    refine ⟨m, hmem, hle, ?_⟩
    have hf : (fuseKey rows).snieg_max_mm
      = (maxList (rows.map (·.snieg_suma))).map round1 := rfl
    rw [hf, hm]
    rfl
  · intro s hs
    refine ⟨hs ▸ List.sorted_insertionSort _ _, hs ▸ List.perm_insertionSort _ _, ?_⟩
    intro hne
    have hf : (fuseKey rows).snieg_p90_mm
      = (quantile09 (rows.map (·.snieg_suma))).map round1 := rfl
    rw [hf]
    unfold quantile09
    rw [if_neg (by simpa [List.isEmpty_iff] using hne' hne)]
    rw [Option.map_some']
    subst hs
    rw [hlen]
  · have hf : (fuseKey rows).snieg_modele_ile
      = (rows.map (·.snieg_suma)).countP (fun x => decide (SNOW_THRESHOLD_MM ≤ x)) := rfl
    rw [hf, List.countP_eq_length_filter]
  · intro hnd hne
    have hf : (fuseKey rows).snieg_modele_pct
      = (if (rows.map (·.snieg_suma)).length = 0 then (0:ℚ)
        else ((roundHE (100 * (((rows.map (·.snieg_suma)).countP
          (fun x => decide (SNOW_THRESHOLD_MM ≤ x))) : ℚ) /
          ((rows.map (·.snieg_suma)).length : ℚ)) : ℤ) : ℚ)) := rfl
    rw [hf, if_neg (by rw [hlen]; exact fun h => hne (List.length_eq_zero.1 h))]
    have hded : (rows.map (·.model)).dedup = rows.map (·.model) := List.dedup_eq_self.2 hnd
    have hl : (fuseKey rows).liczba_modeli = (rows.map (·.model)).dedup.length := rfl
    have hi : (fuseKey rows).snieg_modele_ile
      = (rows.map (·.snieg_suma)).countP (fun x => decide (SNOW_THRESHOLD_MM ≤ x)) := rfl
    rw [hl, hded, hi, hlen, List.length_map]
  · intro h
    subst h
    rfl
  · have hmap : ([snowRow "a" 0, snowRow "b" (0.2), snowRow "c" (0.3)].map (·.snieg_suma))
      = [0, 0.2, 0.3] := rfl
    have hf : (fuseKey [snowRow "a" 0, snowRow "b" (0.2), snowRow "c" (0.3)]).snieg_modele_pct
      = (if ([snowRow "a" 0, snowRow "b" (0.2), snowRow "c" (0.3)].map (·.snieg_suma)).length = 0
        then (0:ℚ)
        else ((roundHE (100 * ((([snowRow "a" 0, snowRow "b" (0.2), snowRow "c" (0.3)].map
          (·.snieg_suma)).countP (fun x => decide (SNOW_THRESHOLD_MM ≤ x))) : ℚ) /
          (([snowRow "a" 0, snowRow "b" (0.2), snowRow "c" (0.3)].map
          (·.snieg_suma)).length : ℚ)) : ℤ) : ℚ)) := rfl
    rw [hf, hmap]
    simp only [List.countP_cons, List.countP_nil, List.length_cons, List.length_nil,
      decide_eq_true_eq, SNOW_THRESHOLD_MM]
    norm_num [roundHE]

/-- C7: for every bucket of hourly records, the bucketer's mean temperature
and mean windspeed are the arithmetic means of the non-missing values of the
bucket, the max windgust is a maximum of the non-missing gusts, and each of
the three (and minimum visibility) is null exactly when every value of the
metric in the bucket is missing, whereas the precipitation and snowfall sums
are the sums of the non-missing values and hence 0.0 when every value is
missing. -/
theorem c7_bucket_aggregates (place model : String) (d : Nat) (p : String)
    (sub : List HourlyRecord) :
    ((mkRow place model d p sub).temp_C_srednia = none ↔
      ∀ r ∈ sub, r.temperature_2m = none) ∧
    (∀ l, l = nonNull (sub.map (·.temperature_2m)) → l ≠ [] →
      (mkRow place model d p sub).temp_C_srednia = some (l.sum / (l.length : ℚ))) ∧
    ((mkRow place model d p sub).wiatr_km_h_sredni = none ↔
      ∀ r ∈ sub, r.windspeed_10m = none) ∧
    (∀ l, l = nonNull (sub.map (·.windspeed_10m)) → l ≠ [] →
      (mkRow place model d p sub).wiatr_km_h_sredni = some (l.sum / (l.length : ℚ))) ∧
    ((mkRow place model d p sub).porywy_km_h_max = none ↔
      ∀ r ∈ sub, r.windgusts_10m = none) ∧
    (∀ l, l = nonNull (sub.map (·.windgusts_10m)) → l ≠ [] →
      ∃ g, g ∈ l ∧ (∀ x ∈ l, x ≤ g) ∧
        (mkRow place model d p sub).porywy_km_h_max = some g) ∧
    ((mkRow place model d p sub).widzialnosc_min_m = none ↔
      ∀ r ∈ sub, r.visibility = none) ∧
    (mkRow place model d p sub).opad_mm_suma = (nonNull (sub.map (·.precipitation))).sum ∧
    (mkRow place model d p sub).snieg_suma = (nonNull (sub.map (·.snowfall))).sum ∧
    ((∀ r ∈ sub, r.precipitation = none) → (mkRow place model d p sub).opad_mm_suma = 0) ∧
    ((∀ r ∈ sub, r.snowfall = none) → (mkRow place model d p sub).snieg_suma = 0) := by
  have hT : (mkRow place model d p sub).temp_C_srednia
      = meanO (sub.map (·.temperature_2m)) := rfl
  have hW : (mkRow place model d p sub).wiatr_km_h_sredni
      = meanO (sub.map (·.windspeed_10m)) := rfl
  have hG : (mkRow place model d p sub).porywy_km_h_max
      = maxList (nonNull (sub.map (·.windgusts_10m))) := rfl
  have hV : (mkRow place model d p sub).widzialnosc_min_m
      = (minList (nonNull (sub.map (·.visibility)))).map truncQ := rfl
  have hO : (mkRow place model d p sub).opad_mm_suma
      = (nonNull (sub.map (·.precipitation))).sum := rfl
  have hS : (mkRow place model d p sub).snieg_suma
      = (nonNull (sub.map (·.snowfall))).sum := rfl
  refine ⟨?_, ?_, ?_, ?_, ?_, ?_, ?_, hO, hS, ?_, ?_⟩
  · rw [hT, meanO_eq_none_iff, nonNull_eq_nil_iff, List.forall_mem_map]
  · intro l hl hne
    subst hl
    rw [hT, meanO_of_ne_nil _ hne]
  · rw [hW, meanO_eq_none_iff, nonNull_eq_nil_iff, List.forall_mem_map]
  · intro l hl hne
    subst hl
    rw [hW, meanO_of_ne_nil _ hne]
  · rw [hG, maxList_eq_none_iff, nonNull_eq_nil_iff, List.forall_mem_map]
  · intro l hl hne
    subst hl
    obtain ⟨g, hg⟩ := maxList_isSome _ hne
    obtain ⟨hmem, hle⟩ := maxList_spec _ g hg
    exact ⟨g, hmem, hle, by rw [hG, hg]⟩
  · rw [hV, Option.map_eq_none', minList_eq_none_iff, nonNull_eq_nil_iff,
      List.forall_mem_map]
  · intro hall
    rw [hO, (nonNull_eq_nil_iff _).2 (by simpa [List.forall_mem_map] using hall)]
    rfl
  · intro hall
    rw [hS, (nonNull_eq_nil_iff _).2 (by simpa [List.forall_mem_map] using hall)]
    rfl

/-- C10: for every bucket whose visibility values are not all missing, the
bucketer reports the minimum visibility truncated to an integer number of
metres — `int(vis_min)`, which discards the fractional part (equal to the
floor for the non-negative values visibility takes) — and not the raw
minimum: on a record with visibility 1234.85 m the reported value is 1234. -/
theorem c10_visibility_truncation (place model : String) (d : Nat) (p : String)
    (sub : List HourlyRecord) :
    (∀ l, l = nonNull (sub.map (·.visibility)) → l ≠ [] →
      ∃ m, m ∈ l ∧ (∀ x ∈ l, m ≤ x) ∧
        (mkRow place model d p sub).widzialnosc_min_m = some (truncQ m) ∧
        (0 ≤ m → (mkRow place model d p sub).widzialnosc_min_m = some ⌊m⌋)) ∧
    visRec.visibility = some (24697/20) ∧
    (mkRow "p" "m" 0 "noc" [visRec]).widzialnosc_min_m = some 1234 ∧
    ((1234 : ℚ) ≠ 24697/20) := by
  refine ⟨?_, rfl, ?_, by norm_num⟩
  · intro l hl hne
    have hV : (mkRow place model d p sub).widzialnosc_min_m
        = (minList (nonNull (sub.map (·.visibility)))).map truncQ := rfl
    obtain ⟨m, hm⟩ := minList_isSome _ (hl ▸ hne)
    obtain ⟨hmem, hle⟩ := minList_spec _ m hm
    refine ⟨m, hl ▸ hmem, ?_, ?_, ?_⟩
    · intro x hx
      exact hle x (hl ▸ hx)
    · rw [hV, hm]
      rfl
    · intro hnn
      rw [hV, hm, Option.map_some']
      have : truncQ m = ⌊m⌋ := by
        unfold truncQ
        rw [if_pos hnn]
      rw [this]
  · have hV : (mkRow "p" "m" 0 "noc" [visRec]).widzialnosc_min_m
        = (minList (nonNull ([visRec].map (·.visibility)))).map truncQ := rfl
    have hl : nonNull ([visRec].map (·.visibility)) = [24697/20] := rfl
    rw [hV, hl]
    have hm : minList [(24697 : ℚ)/20] = some (24697/20) := rfl
    rw [hm, Option.map_some']
    have : truncQ (24697/20) = 1234 := by
      unfold truncQ
      rw [if_pos (by norm_num)]
      norm_num [Int.floor_eq_iff]
    rw [this]

theorem rowOf_eq_some_iff (recs : List HourlyRecord) (place model : String)
    (d : Nat) (pr : String × Nat × Nat) (row : Row) :
    rowOf recs place model d pr = some row ↔
      bucketOf recs d pr ≠ [] ∧ row = mkRow place model d pr.1 (bucketOf recs d pr) := by
  unfold rowOf
  by_cases h : (bucketOf recs d pr).isEmpty
  · simp [h, List.isEmpty_iff.1 h]
  · have : bucketOf recs d pr ≠ [] := by
      intro hc
      exact h (List.isEmpty_iff.2 hc)
    simp [h, this, eq_comm]

theorem rowOf_fields (recs : List HourlyRecord) (place model : String)
    (d : Nat) (pr : String × Nat × Nat) (row : Row)
    (h : rowOf recs place model d pr = some row) :
    row.data = d ∧ row.pora_dnia = pr.1 := by
  obtain ⟨-, hrow⟩ := (rowOf_eq_some_iff recs place model d pr row).1 h
  subst hrow
  exact ⟨rfl, rfl⟩

theorem mem_datesOf (recs : List HourlyRecord) (d : Nat) :
    d ∈ datesOf recs ↔ ∃ rec ∈ recs, rec.date = d := by
  unfold datesOf
  rw [(List.perm_insertionSort _ _).mem_iff, List.mem_dedup, List.mem_map]

theorem mem_bucketOf (recs : List HourlyRecord) (d : Nat)
    (pr : String × Nat × Nat) (rec : HourlyRecord) :
    rec ∈ bucketOf recs d pr ↔
      rec ∈ recs ∧ rec.date = d ∧ inRange rec.hour pr.2.1 pr.2.2 = true := by
  unfold bucketOf
  rw [List.mem_filter, Bool.and_eq_true, beq_iff_eq]

/-- C8: for every input hourly table, the bucketer emits a row keyed
`(d, pname)` exactly when some hourly record falls on date `d` inside the
hour range of the daypart named `pname` — an empty bucket is omitted
entirely — and no two emitted rows share a `(date, daypart)` key, so there is
exactly one row per non-empty bucket. -/
theorem c8_one_row_per_nonempty_bucket (recs : List HourlyRecord)
    (place model : String) (d : Nat) (pname : String) :
    ((∃ row ∈ summarize_dayparts recs place model,
        row.data = d ∧ row.pora_dnia = pname)
      ↔ (∃ pr ∈ DAYPARTS, pr.1 = pname ∧
          ∃ rec ∈ recs, rec.date = d ∧ inRange rec.hour pr.2.1 pr.2.2 = true)) ∧
    List.Pairwise (fun a b => ¬(a.data = b.data ∧ a.pora_dnia = b.pora_dnia))
      (summarize_dayparts recs place model) := by
  have hperm : (summarize_dayparts recs place model).Perm (bucketRows recs place model) :=
    List.perm_insertionSort _ _
  constructor
  · simp only [hperm.mem_iff]
    unfold bucketRows
    constructor
    · rintro ⟨row, hrow, hd, hp⟩
      obtain ⟨d', hd', hrow'⟩ := List.mem_flatMap.1 hrow
      obtain ⟨pr, hpr, hsome⟩ := List.mem_filterMap.1 hrow'
      obtain ⟨hne, hrow_eq⟩ := (rowOf_eq_some_iff recs place model d' pr row).1 hsome
      obtain ⟨rec, hrec⟩ := List.exists_mem_of_ne_nil _ hne
      rw [mem_bucketOf] at hrec
      have hdd : row.data = d' := by rw [hrow_eq]; rfl
      have hpp : row.pora_dnia = pr.1 := by rw [hrow_eq]; rfl
      refine ⟨pr, hpr, by rw [← hpp, hp], rec, hrec.1, ?_, hrec.2.2⟩
      rw [hrec.2.1, ← hdd, hd]
    · rintro ⟨pr, hpr, hname, rec, hrec, hdate, hin⟩
      have hbne : bucketOf recs d pr ≠ [] :=
        List.ne_nil_of_mem ((mem_bucketOf recs d pr rec).2 ⟨hrec, hdate, hin⟩)
      refine ⟨mkRow place model d pr.1 (bucketOf recs d pr), ?_, rfl, hname⟩
      refine List.mem_flatMap.2 ⟨d, (mem_datesOf recs d).2 ⟨rec, hrec, hdate⟩, ?_⟩
      exact List.mem_filterMap.2
        ⟨pr, hpr, (rowOf_eq_some_iff recs place model d pr _).2 ⟨hbne, rfl⟩⟩
  · rw [List.Perm.pairwise_iff (fun h hab => h ⟨hab.1.symm, hab.2.symm⟩) hperm]
    unfold bucketRows
    rw [List.pairwise_flatMap]
    constructor
    · intro d' _
      rw [List.pairwise_filterMap]
      have hnames : (DAYPARTS.map (·.1)).Nodup := by decide
      refine (List.pairwise_map.1 hnames).imp ?_
      intro p1 p2 hne x hx y hy hc
      obtain ⟨-, hx2⟩ := rowOf_fields recs place model d' p1 x hx
      obtain ⟨-, hy2⟩ := rowOf_fields recs place model d' p2 y hy
      exact hne (by rw [← hx2, ← hy2, hc.2])
    · have hnd : (datesOf recs).Nodup :=
        ((List.perm_insertionSort _ _).nodup_iff).2 (List.nodup_dedup _)
      refine hnd.imp ?_
      intro d1 d2 hne x hx y hy hc
      obtain ⟨pr1, -, hx'⟩ := List.mem_filterMap.1 hx
      obtain ⟨pr2, -, hy'⟩ := List.mem_filterMap.1 hy
      obtain ⟨hx1, -⟩ := rowOf_fields recs place model d1 pr1 x hx'
      obtain ⟨hy1, -⟩ := rowOf_fields recs place model d2 pr2 y hy'
      exact hne (by rw [← hx1, ← hy1, hc.1])

theorem runMain_entry_none_iff (r : Except String (List Row)) :
    (match r with
      | .ok rows => if rows.isEmpty then none else some rows
      | .error _ => (none : Option (List Row))) = none ↔ usable r = false := by
  cases r with
  | ok rows => by_cases h : rows.isEmpty <;> simp [usable, h]
  | error e => simp [usable]

/-- C9: if no (location, model) pair of a run yields a usable (non-empty)
summary, the run terminates with the fatal empty-result error and produces no
output; a failed pair (a raised exception, modelled as `Except.error`) or a
pair with an empty summary is merely dropped from the fused input, leaving
the outcome of the run identical to a run without that pair, and a run with
at least one usable pair always produces fused output. -/
theorem c9_failure_policy :
    (∀ (l1 l2 : List (Except String (List Row))) (e : String),
      runMain (l1 ++ Except.error e :: l2) = runMain (l1 ++ l2)) ∧
    (∀ (l1 l2 : List (Except String (List Row))),
      runMain (l1 ++ Except.ok [] :: l2) = runMain (l1 ++ l2)) ∧
    (∀ results : List (Except String (List Row)),
      ((∀ r ∈ results, usable r = false) ↔
        runMain results = Except.error "Nie udalo sie pobrac danych z zadnego modelu.")) ∧
    (∀ results : List (Except String (List Row)),
      (∃ r ∈ results, usable r = true) → ∃ out, runMain results = Except.ok out) := by
  refine ⟨?_, ?_, ?_, ?_⟩
  · intro l1 l2 e
    simp [runMain, List.filterMap_append, List.filterMap_cons]
  · intro l1 l2
    simp [runMain, List.filterMap_append, List.filterMap_cons]
  · intro results
    constructor
    · intro hall
      simp only [runMain]
      rw [if_pos (List.isEmpty_iff.2 (List.filterMap_eq_nil_iff.2
        (fun r hr => (runMain_entry_none_iff r).2 (hall r hr))))]
    · intro h r hr
      by_contra hu
      simp only [runMain] at h
      by_cases hp : (results.filterMap (fun r =>
          match r with
          | .ok rows => if rows.isEmpty then none else some rows
          | .error _ => none)).isEmpty
      · have := List.filterMap_eq_nil_iff.1 (List.isEmpty_iff.1 hp) r hr
        exact hu ((runMain_entry_none_iff r).1 this)
      · rw [if_neg hp] at h
        cases h
  · rintro results ⟨r, hr, hu⟩
    simp only [runMain]
    have hp : ¬(results.filterMap (fun r =>
        match r with
        | .ok rows => if rows.isEmpty then none else some rows
        | .error _ => none)).isEmpty := by
      intro hp
      have := List.filterMap_eq_nil_iff.1 (List.isEmpty_iff.1 hp) r hr
      rw [(runMain_entry_none_iff r).1 this] at hu
      cases hu
    rw [if_neg hp]
    exact ⟨_, rfl⟩

end RaportPogoda
